import Mathlib

/-!
# Verification of the Stacking tower game (src/main.rs)

Shallow embedding of the simulation core of the stacking-tower game:
the grid/row data model, the oscillating-platform movement
(`update_movement`), the landing/overlap algorithm (`check_landing`),
the session state machine (`start_game`, `key_down_event`, the per-frame
`update`), and the camera-offset policy from `draw`.

Modelling conventions:
* Rust `i32` values are modelled as `Int` (all quantities involved stay
  far from the `i32` range bounds, so wrap-around never matters).
* Rust `f32` values (`move_timer`, `move_interval`, `fall_offset`,
  window dimensions) are modelled as exact rationals `ℚ`; decimal
  literals such as `0.92` denote the exact decimal fraction.
* Rust `Vec` indexing that the source guards by its own bound checks is
  modelled by `updAt`, which leaves the list unchanged on an
  out-of-range index; the invariant theorems show the indices the
  source uses unguarded stay in range in the states considered.
  `usize` casts of indices are modelled as `Int.toNat`; the states
  considered keep those indices nonnegative.
* `GameState::GameOver(Instant)` carries a wall-clock timestamp used
  only for the 3-second menu return; the timestamp is dropped and the
  elapsed-time comparison is abstracted as a boolean input to the tick.
* File I/O (`GameStats::load` / `save`) is omitted: the source treats
  save failures as non-fatal logging, and the in-memory state is
  authoritative.
-/

/-- `GAME_WIDTH` from src/main.rs line 13. -/
def GAME_WIDTH : Int := 15

/-- `PLATFORM_BLOCKS` from src/main.rs line 14. -/
def PLATFORM_BLOCKS : Int := 5

/-- `MOVE_INTERVAL` from src/main.rs line 15 (f32 modelled as ℚ). -/
def MOVE_INTERVAL : ℚ := 0.2

/-- `SPEED_INCREASE` from src/main.rs line 16 (f32 modelled as ℚ). -/
def SPEED_INCREASE : ℚ := 0.92

/-- The falling-block speed constant `500.0` from src/main.rs line 175. -/
def FALL_SPEED : ℚ := 500

/-- `GridBlock` from src/main.rs lines 18-25. -/
structure GridBlock where
  active : Bool
  landed : Bool
  level : Int
  falling : Bool
  fall_offset : ℚ
deriving DecidableEq

/-- `GameState` from src/main.rs lines 27-33; the `Instant` payload of
`GameOver` is dropped (wall-clock time is abstracted at the tick). -/
inductive GameState where
  | Menu
  | Playing
  | GameOver
  | Settings
deriving DecidableEq

/-- `GameStats` from src/main.rs lines 35-39. -/
structure GameStats where
  high_score : Int
  games_played : Int
deriving DecidableEq

/-- `GameData` from src/main.rs lines 68-83 (the two window fields kept,
`Context` handles dropped). -/
structure GameData where
  state : GameState
  grid : List (List GridBlock)
  platform_position : Int
  platform_width : Int
  move_right : Bool
  move_timer : ℚ
  move_interval : ℚ
  level : Int
  camera_offset_y : ℚ
  window_width : ℚ
  window_height : ℚ
  current_row : Int
  moving_platform_pos : Int
  stats : GameStats
deriving DecidableEq

/-- The key codes the game reacts to (src/main.rs `key_down_event`). -/
inductive KeyCode where
  | Return
  | S
  | Q
  | Space
  | Escape
  | Other
deriving DecidableEq

/-- A blank cell with a given `level` tag, as built by the row
constructors (src/main.rs lines 121-127 and 141-147). -/
def blankCell (lvl : Int) : GridBlock :=
  { active := false, landed := false, level := lvl, falling := false, fall_offset := 0 }

/-- Default cell used for out-of-range reads. -/
def blank : GridBlock := blankCell 0

/-- Read cell `i` of a row (total; out of range gives `blank`). -/
def cell (row : List GridBlock) (i : Nat) : GridBlock :=
  row.getD i blank

/-- In-place update of index `n`, modelling `row[n].field = v`;
out-of-range indices leave the list unchanged. -/
def updAt {α : Type} (f : α → α) : List α → Nat → List α
  | [], _ => []
  | a :: t, 0 => f a :: t
  | a :: t, n + 1 => a :: updAt f t n

/-- Map a function over a row together with the cell index, starting the
index count at `k`; models the source's indexed `for` loops over a row. -/
def markRow {α : Type} (f : Nat → α → α) : Nat → List α → List α
  | _, [] => []
  | k, b :: t => f k b :: markRow f (k + 1) t

/-- Modelling `if let Some(row) = self.grid.last_mut() { …mutate row… }`:
apply `f` to the last row if the grid is nonempty. -/
def withLastRow (f : List GridBlock → List GridBlock) (g : List (List GridBlock)) :
    List (List GridBlock) :=
  match g.getLast? with
  | none => g
  | some row => g.dropLast ++ [f row]

/-- `row[i].active = v`. -/
def setActive (v : Bool) (b : GridBlock) : GridBlock :=
  { b with active := v }

/-- One falling block's per-tick update, src/main.rs lines 173-177:
`if block.falling { block.fall_offset += 500.0 * dt }`. -/
def fallTick (dt : ℚ) (b : GridBlock) : GridBlock :=
  if b.falling = true then { b with fall_offset := b.fall_offset + FALL_SPEED * dt } else b

/-- The cell update of the first loop of `check_landing`
(src/main.rs lines 231-238): an active, not-yet-landed cell outside the
target span `[ps, pe]` starts falling with `fall_offset = 0`. -/
def fallMark (ps pe : Int) (i : Nat) (b : GridBlock) : GridBlock :=
  if b.active = true ∧ b.landed = false ∧ ((i : Int) < ps ∨ pe < (i : Int)) then
    { b with falling := true, fall_offset := 0 }
  else b

/-- The cell update of the second loop of `check_landing`
(src/main.rs lines 241-246): an active cell inside the target span
(and inside `[0, GAME_WIDTH)`) is marked landed. -/
def landMark (ps pe : Int) (i : Nat) (b : GridBlock) : GridBlock :=
  if ps ≤ (i : Int) ∧ (i : Int) ≤ pe ∧ (i : Int) < GAME_WIDTH ∧ b.active = true then
    { b with landed := true }
  else b

/-- `active_count` of `check_landing` (src/main.rs lines 241-246): the
number of active cells whose index lies in the target span and in
`[0, GAME_WIDTH)`, counting a row whose first cell has index `k`. -/
def active_count (ps pe : Int) : Nat → List GridBlock → Nat
  | _, [] => 0
  | k, b :: t =>
    (if ps ≤ (k : Int) ∧ (k : Int) ≤ pe ∧ (k : Int) < GAME_WIDTH ∧ b.active = true then 1 else 0)
      + active_count ps pe (k + 1) t

/-- The claim-side count: active cells of a row whose column lies in the
span `[ps, pe]`, with no extra `GAME_WIDTH` guard (for a row of the
grid's width the two counts coincide; see `active_count_eq_activeInSpan`). -/
def activeInSpan (ps pe : Int) : Nat → List GridBlock → Nat
  | _, [] => 0
  | k, b :: t =>
    (if ps ≤ (k : Int) ∧ (k : Int) ≤ pe ∧ b.active = true then 1 else 0)
      + activeInSpan ps pe (k + 1) t

/-- Columns (from index `k`) of the cells currently marked falling. -/
def fallingCols : Nat → List GridBlock → List Nat
  | _, [] => []
  | k, b :: t => (if b.falling = true then [k] else []) ++ fallingCols (k + 1) t

/-- The fresh top row built by `add_new_row` (src/main.rs lines 140-157):
blank cells tagged `lvl`, with the `width` cells starting at column `pos`
activated (only indices inside the row, mirroring the `pos < GAME_WIDTH`
guard of the source). -/
def newRowAt (pos width lvl : Int) : List GridBlock :=
  markRow
    (fun i b => if pos ≤ (i : Int) ∧ (i : Int) < pos + width then { b with active := true } else b)
    0 (List.replicate GAME_WIDTH.toNat (blankCell lvl))

/-- The base row built by `add_base_row` (src/main.rs lines 120-138):
the platform cells are active and landed with level 0. -/
def baseRowAt (pos width : Int) : List GridBlock :=
  markRow
    (fun i b =>
      if pos ≤ (i : Int) ∧ (i : Int) < pos + width then
        { b with active := true, landed := true, level := 0 }
      else b)
    0 (List.replicate GAME_WIDTH.toNat (blankCell 0))

/-- `GameData::add_base_row`, src/main.rs lines 120-138. -/
def add_base_row (s : GameData) : GameData :=
  { s with grid := s.grid ++ [baseRowAt s.platform_position s.platform_width] }

/-- `GameData::add_new_row`, src/main.rs lines 140-157. -/
def add_new_row (s : GameData) : GameData :=
  { s with grid := s.grid ++ [newRowAt s.moving_platform_pos s.platform_width s.level] }

/-- `GameData::reset_game`, src/main.rs lines 109-118. -/
def reset_game (s : GameData) : GameData :=
  add_new_row (add_base_row
    { s with
      grid := []
      platform_width := PLATFORM_BLOCKS
      platform_position := (GAME_WIDTH - PLATFORM_BLOCKS) / 2
      moving_platform_pos := (GAME_WIDTH - PLATFORM_BLOCKS) / 2
      current_row := 0
      move_interval := MOVE_INTERVAL })

/-- `GameData::start_game`, src/main.rs lines 159-168 (the stats save is
I/O and non-fatal, hence omitted). -/
def start_game (s : GameData) : GameData :=
  reset_game
    { s with
      state := GameState.Playing
      level := 0
      camera_offset_y := 0
      stats := { s.stats with games_played := s.stats.games_played + 1 } }

/-- The right-step branch of `update_movement`, src/main.rs lines 185-197:
deactivate the cell at the old left edge, advance the position, activate
the new right edge (guarded by `new_pos < GAME_WIDTH`); all of it only
when the grid has a last row. -/
def stepRight (s : GameData) : GameData :=
  match s.grid.getLast? with
  | none => s
  | some row =>
    let row1 := updAt (setActive false) row s.moving_platform_pos.toNat
    let newPos := s.moving_platform_pos + s.platform_width
    let row2 := if newPos < GAME_WIDTH then updAt (setActive true) row1 newPos.toNat else row1
    { s with
      grid := s.grid.dropLast ++ [row2]
      moving_platform_pos := s.moving_platform_pos + 1 }

/-- The left-step branch of `update_movement`, src/main.rs lines 202-214:
deactivate the old right edge (guarded by `old_pos < GAME_WIDTH`),
retreat the position, activate the new left edge. -/
def stepLeft (s : GameData) : GameData :=
  match s.grid.getLast? with
  | none => s
  | some row =>
    let oldPos := s.moving_platform_pos + s.platform_width - 1
    let row1 := if oldPos < GAME_WIDTH then updAt (setActive false) row oldPos.toNat else row
    let row2 := updAt (setActive true) row1 (s.moving_platform_pos - 1).toNat
    { s with
      grid := s.grid.dropLast ++ [row2]
      moving_platform_pos := s.moving_platform_pos - 1 }

/-- `GameData::update_movement`, src/main.rs lines 170-222: advance the
falling blocks of the last row, accumulate the timer, and when the timer
reaches the interval, reset it and step (or bounce) the moving platform.
Returns the updated state together with the function's `bool` result. -/
def update_movement (s : GameData) (dt : ℚ) : GameData × Bool :=
  let s1 := { s with grid := withLastRow (List.map (fallTick dt)) s.grid }
  let s2 := { s1 with move_timer := s1.move_timer + dt }
  if s2.move_interval ≤ s2.move_timer then
    let s3 := { s2 with move_timer := 0 }
    if s3.move_right = true then
      if s3.moving_platform_pos + s3.platform_width < GAME_WIDTH then (stepRight s3, true)
      else ({ s3 with move_right := false }, true)
    else
      if 0 < s3.moving_platform_pos then (stepLeft s3, true)
      else ({ s3 with move_right := true }, true)
  else (s2, false)

/-- `GameData::check_landing`, src/main.rs lines 224-258. -/
def check_landing (s : GameData) : GameData × Bool :=
  match s.grid.getLast? with
  | none => (s, false)
  | some row =>
    let ps := s.platform_position
    let pe := s.platform_position + s.platform_width - 1
    let row1 := markRow (fallMark ps pe) 0 row
    let cnt := active_count ps pe 0 row1
    let row2 := markRow (landMark ps pe) 0 row1
    let g := s.grid.dropLast ++ [row2]
    if 0 < cnt then
      ({ s with
          grid := g
          platform_width := (cnt : Int)
          platform_position := (GAME_WIDTH - (cnt : Int)) / 2
          moving_platform_pos := (GAME_WIDTH - (cnt : Int)) / 2
          current_row := s.current_row + 1 }, true)
    else ({ s with grid := g }, false)

/-- `EventHandler::key_down_event`, src/main.rs lines 486-522.  `Q` in
the menu calls `process::exit(0)`; exiting the process is modelled as
leaving the state unchanged (no further observable transitions). -/
def key_down_event (s : GameData) (k : KeyCode) : GameData :=
  match s.state with
  | GameState.Menu =>
    match k with
    | KeyCode.Return => start_game s
    | KeyCode.S => { s with state := GameState.Settings }
    | _ => s
  | GameState.Playing =>
    match k with
    | KeyCode.Space =>
      let r := check_landing s
      if r.2 = true then
        let s2 := add_new_row r.1
        { s2 with level := s2.level + 1, move_interval := s2.move_interval * SPEED_INCREASE }
      else
        let s2 :=
          if r.1.stats.high_score < r.1.level then
            { r.1 with stats := { r.1.stats with high_score := r.1.level } }
          else r.1
        { s2 with state := GameState.GameOver }
    | _ => s
  | GameState.Settings =>
    match k with
    | KeyCode.Escape => { s with state := GameState.Menu }
    | _ => s
  | GameState.GameOver => s

/-- The camera-offset recomputation at the top of `draw`,
src/main.rs lines 292-301: with `block_draw_size = window_width /
GAME_WIDTH` and the live row's y-position `window_height - rows *
block_draw_size`, the offset is rewritten whenever that position is
above 70% of the window height. -/
def camera_update (s : GameData) : GameData :=
  let block_draw_size := s.window_width / (GAME_WIDTH : ℚ)
  if (s.state = GameState.Playing ∨ s.state = GameState.GameOver)
      ∧ 1 < s.grid.length ∧ 4 ≤ s.level then
    let moving_platform_y := s.window_height - (s.grid.length : ℚ) * block_draw_size
    if moving_platform_y < s.window_height * 0.7 then
      { s with camera_offset_y := moving_platform_y - s.window_height * 0.3 }
    else s
  else s

/-- `EventHandler::update`, src/main.rs lines 275-288: the per-frame
tick.  The wall-clock test `start_time.elapsed().as_secs() >= 3` of the
game-over state is abstracted as the boolean input `elapsed3`. -/
def tick_update (s : GameData) (dt : ℚ) (elapsed3 : Bool) : GameData :=
  match s.state with
  | GameState.Playing => (update_movement s dt).1
  | GameState.GameOver => if elapsed3 = true then { s with state := GameState.Menu } else s
  | _ => s

/-- Iterated ticks of `update_movement` over a list of frame deltas. -/
def ticks (s : GameData) : List ℚ → GameData
  | [] => s
  | dt :: rest => ticks (update_movement s dt).1 rest

/-- The movement invariant: the moving platform's column range
`[moving_platform_pos, moving_platform_pos + platform_width - 1]` lies
inside `[0, GAME_WIDTH)`. -/
def MovInv (s : GameData) : Prop :=
  0 ≤ s.moving_platform_pos ∧ s.moving_platform_pos + s.platform_width ≤ GAME_WIDTH

instance : DecidablePred MovInv := fun s => by
  unfold MovInv
  infer_instance

/-- The last row of the grid (the live row), `[]` when the grid is empty. -/
def topRow (s : GameData) : List GridBlock :=
  s.grid.getLastD []

/-- A zeroed statistics record, as produced by `GameStats::new`. -/
def stats0 : GameStats := { high_score := 0, games_played := 0 }

/-- A concrete in-play session, used to instantiate the theorems:
the state right after `reset_game` (base platform of width 5 at column
5, live row at the same span), with an 800×600 window. -/
def demoPlay : GameData :=
  { state := GameState.Playing
    grid := [baseRowAt 5 5, newRowAt 5 5 0]
    platform_position := 5
    platform_width := 5
    move_right := true
    move_timer := 0
    move_interval := MOVE_INTERVAL
    level := 0
    camera_offset_y := 0
    window_width := 800
    window_height := 600
    current_row := 0
    moving_platform_pos := 5
    stats := stats0 }

/-- The concrete scenario of claim C4: target span `[5..9]`, moving
platform shifted to columns `[7..11]`. -/
def scenarioShifted : GameData :=
  { demoPlay with
    grid := [baseRowAt 5 5, newRowAt 7 5 0]
    moving_platform_pos := 7 }

/-- The concrete scenario of claim C3: target span `[6..8]`, moving
platform at columns `[12..14]` (zero overlap). -/
def scenarioMiss : GameData :=
  { demoPlay with
    grid := [baseRowAt 6 3, newRowAt 12 3 0]
    platform_position := 6
    platform_width := 3
    moving_platform_pos := 12 }

/-- A state at the right oscillation boundary (moving right, platform at
columns `[10..14]`), with the move timer about to fire. -/
def scenarioBoundary : GameData :=
  { demoPlay with
    grid := [baseRowAt 5 5, newRowAt 10 5 0]
    moving_platform_pos := 10 }

/-- A Playing state with a 6-row tower at level 4 (800×600 window),
exercising the camera policy. -/
def scenarioTower : GameData :=
  { demoPlay with
    grid := List.replicate 6 (baseRowAt 6 3)
    level := 4 }

/-- `scenarioTower` one successful landing later: a 7-row tower with the
camera offset the policy computed for the 6-row tower. -/
def scenarioTower7 : GameData :=
  { scenarioTower with
    grid := List.replicate 7 (baseRowAt 6 3)
    camera_offset_y := 100
    level := 5 }

/-! ## Basic lemmas about the row helpers -/

theorem withLastRow_concat (f : List GridBlock → List GridBlock)
    (g : List (List GridBlock)) (row : List GridBlock) :
    withLastRow f (g ++ [row]) = g ++ [f row] := by
  simp [withLastRow, List.getLast?_concat, List.dropLast_concat]

theorem length_updAt {α : Type} (f : α → α) (l : List α) (n : Nat) :
    (updAt f l n).length = l.length := by
  induction l generalizing n with
  | nil => rfl
  | cons a t ih => cases n <;> simp [updAt, ih]

theorem getD_updAt {α : Type} (f : α → α) (l : List α) (n i : Nat) (d : α) :
    (updAt f l n).getD i d =
      if i = n ∧ n < l.length then f (l.getD i d) else l.getD i d := by
  induction l generalizing n i with
  | nil => simp [updAt]
  | cons a t ih =>
    cases n with
    | zero =>
      cases i with
      | zero => simp [updAt]
      | succ j => simp [updAt]
    | succ m =>
      cases i with
      | zero => simp [updAt]
      | succ j => simpa [updAt, Nat.succ_lt_succ_iff] using ih m j

theorem cell_updAt (f : GridBlock → GridBlock) (l : List GridBlock) (n i : Nat) :
    cell (updAt f l n) i =
      if i = n ∧ n < l.length then f (cell l i) else cell l i :=
  getD_updAt f l n i blank

theorem length_markRow {α : Type} (f : Nat → α → α) (k : Nat) (l : List α) :
    (markRow f k l).length = l.length := by
  induction l generalizing k with
  | nil => rfl
  | cons a t ih => simp [markRow, ih]

theorem getD_markRow {α : Type} (f : Nat → α → α) (k i : Nat) (l : List α) (d : α) :
    (markRow f k l).getD i d =
      if i < l.length then f (k + i) (l.getD i d) else d := by
  induction l generalizing k i with
  | nil => simp [markRow]
  | cons a t ih =>
    cases i with
    | zero => simp [markRow]
    | succ j =>
      rw [markRow]
      simp only [List.getD_cons_succ, ih (k + 1) j, List.length_cons]
      have : k + 1 + j = k + (j + 1) := by omega
      rw [this]
      simp [Nat.succ_lt_succ_iff]

theorem cell_markRow (f : Nat → GridBlock → GridBlock) (l : List GridBlock) (i : Nat) :
    cell (markRow f 0 l) i = if i < l.length then f i (cell l i) else blank := by
  have h := getD_markRow f 0 i l blank
  simpa [cell] using h

theorem fallTick_blank (dt : ℚ) : fallTick dt blank = blank := by
  simp [fallTick, blank, blankCell]

theorem cell_map_fallTick (dt : ℚ) (row : List GridBlock) (i : Nat) :
    cell (row.map (fallTick dt)) i = fallTick dt (cell row i) := by
  unfold cell
  simp only [List.getD, List.getElem?_map]
  cases h : row[i]? <;> simp [h, fallTick_blank]

theorem fallTick_fields (dt : ℚ) (b : GridBlock) :
    (fallTick dt b).active = b.active ∧
    (fallTick dt b).landed = b.landed ∧
    (fallTick dt b).level = b.level ∧
    (fallTick dt b).falling = b.falling ∧
    (fallTick dt b).fall_offset =
      (if b.falling = true then b.fall_offset + FALL_SPEED * dt else b.fall_offset) := by
  unfold fallTick
  split <;> simp_all

theorem cell_setActive_updAt (v : Bool) (l : List GridBlock) (n i : Nat) :
    (cell (updAt (setActive v) l n) i).falling = (cell l i).falling ∧
    (cell (updAt (setActive v) l n) i).landed = (cell l i).landed ∧
    (cell (updAt (setActive v) l n) i).level = (cell l i).level ∧
    (cell (updAt (setActive v) l n) i).fall_offset = (cell l i).fall_offset ∧
    (i ≠ n → (cell (updAt (setActive v) l n) i).active = (cell l i).active) := by
  rw [cell_updAt]
  by_cases hc : i = n ∧ n < l.length
  · rw [if_pos hc]
    refine ⟨rfl, rfl, rfl, rfl, fun h => absurd hc.1 h⟩
  · rw [if_neg hc]
    exact ⟨rfl, rfl, rfl, rfl, fun _ => rfl⟩

theorem fallMark_active (ps pe : Int) (i : Nat) (b : GridBlock) :
    (fallMark ps pe i b).active = b.active := by
  unfold fallMark
  split <;> rfl

theorem active_count_markRow (ps pe : Int) (f : Nat → GridBlock → GridBlock)
    (hf : ∀ i b, (f i b).active = b.active) (k : Nat) (l : List GridBlock) :
    active_count ps pe k (markRow f k l) = active_count ps pe k l := by
  induction l generalizing k with
  | nil => rfl
  | cons b t ih => simp [markRow, active_count, hf, ih]

theorem GAME_WIDTH_eq : GAME_WIDTH = 15 := rfl

theorem active_count_eq_activeInSpan (ps pe : Int) (k : Nat) (l : List GridBlock)
    (h : k + l.length ≤ 15) :
    active_count ps pe k l = activeInSpan ps pe k l := by
  induction l generalizing k with
  | nil => rfl
  | cons b t ih =>
    simp only [List.length_cons] at h
    have hk : ((k : Nat) : Int) < GAME_WIDTH := by
      rw [GAME_WIDTH_eq]
      omega
    simp only [active_count, activeInSpan]
    rw [ih (k + 1) (by omega)]
    simp [hk]

theorem active_count_le (ps pe : Int) (k : Nat) (l : List GridBlock) :
    active_count ps pe k l ≤ 15 - k := by
  induction l generalizing k with
  | nil => simp [active_count]
  | cons b t ih =>
    have hi := ih (k + 1)
    simp only [active_count]
    split
    · next hcond =>
      have hk : ((k : Nat) : Int) < 15 := by
        have h2 := hcond.2.2.1
        rw [GAME_WIDTH_eq] at h2
        exact h2
      omega
    · omega

/-! ## Which fields each operation can touch -/

theorem stepRight_scalars (s : GameData) :
    (stepRight s).state = s.state ∧
    (stepRight s).platform_position = s.platform_position ∧
    (stepRight s).platform_width = s.platform_width ∧
    (stepRight s).move_right = s.move_right ∧
    (stepRight s).move_timer = s.move_timer ∧
    (stepRight s).move_interval = s.move_interval ∧
    (stepRight s).level = s.level ∧
    (stepRight s).current_row = s.current_row ∧
    (stepRight s).stats = s.stats := by
  unfold stepRight
  cases h : s.grid.getLast? <;> simp [h]

theorem stepLeft_scalars (s : GameData) :
    (stepLeft s).state = s.state ∧
    (stepLeft s).platform_position = s.platform_position ∧
    (stepLeft s).platform_width = s.platform_width ∧
    (stepLeft s).move_right = s.move_right ∧
    (stepLeft s).move_timer = s.move_timer ∧
    (stepLeft s).move_interval = s.move_interval ∧
    (stepLeft s).level = s.level ∧
    (stepLeft s).current_row = s.current_row ∧
    (stepLeft s).stats = s.stats := by
  unfold stepLeft
  cases h : s.grid.getLast? <;> simp [h]

theorem update_movement_scalars (s : GameData) (dt : ℚ) :
    (update_movement s dt).1.state = s.state ∧
    (update_movement s dt).1.platform_position = s.platform_position ∧
    (update_movement s dt).1.platform_width = s.platform_width ∧
    (update_movement s dt).1.move_interval = s.move_interval ∧
    (update_movement s dt).1.level = s.level ∧
    (update_movement s dt).1.current_row = s.current_row ∧
    (update_movement s dt).1.stats = s.stats := by
  unfold update_movement
  dsimp only
  split_ifs <;>
    simp [stepRight_scalars, stepLeft_scalars]

theorem check_landing_scalars (s : GameData) :
    (check_landing s).1.state = s.state ∧
    (check_landing s).1.move_right = s.move_right ∧
    (check_landing s).1.move_timer = s.move_timer ∧
    (check_landing s).1.move_interval = s.move_interval ∧
    (check_landing s).1.level = s.level ∧
    (check_landing s).1.stats = s.stats := by
  unfold check_landing
  cases h : s.grid.getLast? with
  | none => simp [h]
  | some row =>
    simp only [h]
    split_ifs <;> simp

/-! ## Branch characterizations of `update_movement` -/

theorem map_fallTick_of_no_falling (dt : ℚ) (row : List GridBlock)
    (h : ∀ b ∈ row, b.falling = false) : row.map (fallTick dt) = row := by
  induction row with
  | nil => rfl
  | cons b t ih =>
    have hb := h b (by simp)
    have ht := ih (fun x hx => h x (by simp [hx]))
    simp [fallTick, hb, ht]

theorem withLastRow_of_fixed (f : List GridBlock → List GridBlock)
    (g : List (List GridBlock)) (h : ∀ row, g.getLast? = some row → f row = row) :
    withLastRow f g = g := by
  unfold withLastRow
  cases hg : g.getLast? with
  | none => rfl
  | some row =>
    have hne : g ≠ [] := by
      intro he
      rw [he] at hg
      simp at hg
    have hdrop := List.dropLast_append_getLast hne
    have hg2 : g.getLast hne = row := by
      rw [List.getLast?_eq_getLast g hne] at hg
      exact Option.some.inj hg
    show g.dropLast ++ [f row] = g
    rw [h row hg, ← hg2, hdrop]

theorem update_movement_no_fire (s : GameData) (dt : ℚ)
    (h : ¬(s.move_interval ≤ s.move_timer + dt)) :
    update_movement s dt =
      ({ s with
          grid := withLastRow (List.map (fallTick dt)) s.grid
          move_timer := s.move_timer + dt }, false) := by
  unfold update_movement
  dsimp only
  rw [if_neg h]

theorem update_movement_step_right (s : GameData) (dt : ℚ)
    (hfire : s.move_interval ≤ s.move_timer + dt)
    (hdir : s.move_right = true)
    (hcan : s.moving_platform_pos + s.platform_width < GAME_WIDTH) :
    update_movement s dt =
      (stepRight
        { s with
            grid := withLastRow (List.map (fallTick dt)) s.grid
            move_timer := 0 }, true) := by
  unfold update_movement
  dsimp only
  rw [if_pos hfire, if_pos hdir, if_pos hcan]

theorem update_movement_reverse_right (s : GameData) (dt : ℚ)
    (hfire : s.move_interval ≤ s.move_timer + dt)
    (hdir : s.move_right = true)
    (hbound : ¬(s.moving_platform_pos + s.platform_width < GAME_WIDTH)) :
    update_movement s dt =
      ({ s with
          grid := withLastRow (List.map (fallTick dt)) s.grid
          move_timer := 0
          move_right := false }, true) := by
  unfold update_movement
  dsimp only
  rw [if_pos hfire, if_pos hdir, if_neg hbound]

theorem update_movement_step_left (s : GameData) (dt : ℚ)
    (hfire : s.move_interval ≤ s.move_timer + dt)
    (hdir : s.move_right = false)
    (hcan : 0 < s.moving_platform_pos) :
    update_movement s dt =
      (stepLeft
        { s with
            grid := withLastRow (List.map (fallTick dt)) s.grid
            move_timer := 0 }, true) := by
  unfold update_movement
  dsimp only
  rw [if_pos hfire, if_neg (by simp [hdir] : ¬(s.move_right = true)), if_pos hcan]

theorem update_movement_reverse_left (s : GameData) (dt : ℚ)
    (hfire : s.move_interval ≤ s.move_timer + dt)
    (hdir : s.move_right = false)
    (hstuck : ¬(0 < s.moving_platform_pos)) :
    update_movement s dt =
      ({ s with
          grid := withLastRow (List.map (fallTick dt)) s.grid
          move_timer := 0
          move_right := true }, true) := by
  unfold update_movement
  dsimp only
  rw [if_pos hfire, if_neg (by simp [hdir] : ¬(s.move_right = true)), if_neg hstuck]

/-! ## Claim C5: the return value of `update_movement` -/

/-- C5 (corrected): `update_movement(dt)` returns `true` exactly when the
accumulated move timer reached the interval — including the
boundary ticks on which the platform only reverses direction and does
not step.  (The original claim — `true` iff the top row's occupancy
changed — fails; see `C5_counterexample`.) -/
theorem C5_update_movement_result (s : GameData) (dt : ℚ) :
    (update_movement s dt).2 = true ↔ s.move_interval ≤ s.move_timer + dt := by
  unfold update_movement
  dsimp only
  split_ifs with h h1 h2 h3
  case _ => simp [h]
  case _ => simp [h]
  case _ => simp [h]
  case _ => simp [h]
  case _ => simp [h]

/-- C5 counterexample: at the right boundary (platform at columns
`[10..14]`, moving right) a tick that fires the timer returns `true`
while the grid — in particular the top row's occupancy — and the
platform position are completely unchanged; only the direction flag
flips.  This refutes "the boolean returned is true iff the platform
advanced by one column (the top row's occupancy changed)". -/
theorem C5_counterexample :
    (update_movement scenarioBoundary MOVE_INTERVAL).2 = true ∧
    (update_movement scenarioBoundary MOVE_INTERVAL).1.grid = scenarioBoundary.grid ∧
    (update_movement scenarioBoundary MOVE_INTERVAL).1.moving_platform_pos
      = scenarioBoundary.moving_platform_pos ∧
    scenarioBoundary.move_right = true ∧
    (update_movement scenarioBoundary MOVE_INTERVAL).1.move_right = false := by
  have hrev := update_movement_reverse_right scenarioBoundary MOVE_INTERVAL
    (by simp [scenarioBoundary, demoPlay]) (by decide) (by decide)
  have hgrid : withLastRow (List.map (fallTick MOVE_INTERVAL)) scenarioBoundary.grid
      = scenarioBoundary.grid := by
    refine withLastRow_of_fixed _ _ (fun row hrow => ?_)
    refine map_fallTick_of_no_falling MOVE_INTERVAL row (fun b hb => ?_)
    have hrow2 : row = newRowAt 10 5 0 := by
      have : scenarioBoundary.grid.getLast? = some (newRowAt 10 5 0) := by decide
      rw [this] at hrow
      exact (Option.some.inj hrow).symm
    subst hrow2
    revert b hb
    decide
  rw [hrev]
  refine ⟨rfl, ?_, rfl, rfl, rfl⟩
  exact hgrid

/-! ## Claim C1: oscillation bounds -/

theorem movInv_stepRight (s : GameData)
    (hcan : s.moving_platform_pos + s.platform_width < GAME_WIDTH)
    (h1 : 0 ≤ s.moving_platform_pos) : MovInv (stepRight s) := by
  unfold stepRight MovInv
  cases h : s.grid.getLast? <;> simp [h] <;> omega

theorem movInv_stepLeft (s : GameData)
    (hcan : 0 < s.moving_platform_pos)
    (h2 : s.moving_platform_pos + s.platform_width ≤ GAME_WIDTH) : MovInv (stepLeft s) := by
  unfold stepLeft MovInv
  cases h : s.grid.getLast? <;> simp [h] <;> omega

theorem movInv_update_movement (s : GameData) (dt : ℚ) (h : MovInv s) :
    MovInv (update_movement s dt).1 := by
  obtain ⟨h1, h2⟩ := h
  by_cases hfire : s.move_interval ≤ s.move_timer + dt
  · by_cases hdir : s.move_right = true
    · by_cases hcan : s.moving_platform_pos + s.platform_width < GAME_WIDTH
      · rw [update_movement_step_right s dt hfire hdir hcan]
        exact movInv_stepRight _ hcan h1
      · rw [update_movement_reverse_right s dt hfire hdir hcan]
        exact ⟨h1, h2⟩
    · have hdir2 : s.move_right = false := by
        cases hmr : s.move_right
        · rfl
        · exact absurd hmr hdir
      by_cases hcan : 0 < s.moving_platform_pos
      · rw [update_movement_step_left s dt hfire hdir2 hcan]
        exact movInv_stepLeft _ hcan h2
      · rw [update_movement_reverse_left s dt hfire hdir2 hcan]
        exact ⟨h1, h2⟩
  · rw [update_movement_no_fire s dt hfire]
    exact ⟨h1, h2⟩

theorem movInv_ticks (s : GameData) (dts : List ℚ) (h : MovInv s) :
    MovInv (ticks s dts) := by
  induction dts generalizing s with
  | nil => exact h
  | cons dt rest ih => exact ih _ (movInv_update_movement s dt h)

theorem movInv_reset_game (s : GameData) : MovInv (reset_game s) := by
  refine ⟨?_, ?_⟩
  · show (0 : Int) ≤ (GAME_WIDTH - PLATFORM_BLOCKS) / 2
    decide
  · show (GAME_WIDTH - PLATFORM_BLOCKS) / 2 + PLATFORM_BLOCKS ≤ GAME_WIDTH
    decide

theorem movInv_check_landing (s : GameData) (hsucc : (check_landing s).2 = true) :
    MovInv (check_landing s).1 := by
  unfold check_landing at hsucc ⊢
  cases hg : s.grid.getLast? with
  | none => simp [hg] at hsucc
  | some row =>
    simp only [hg] at hsucc ⊢
    have hle := active_count_le s.platform_position
      (s.platform_position + s.platform_width - 1) 0
      (markRow (fallMark s.platform_position (s.platform_position + s.platform_width - 1)) 0 row)
    set c := active_count s.platform_position (s.platform_position + s.platform_width - 1) 0
      (markRow (fallMark s.platform_position (s.platform_position + s.platform_width - 1)) 0 row)
      with hcdef
    split_ifs at hsucc ⊢ with hc
    · refine ⟨?_, ?_⟩
      · show (0 : Int) ≤ (GAME_WIDTH - (c : Int)) / 2
        rw [GAME_WIDTH_eq]
        omega
      · show (GAME_WIDTH - (c : Int)) / 2 + (c : Int) ≤ GAME_WIDTH
        rw [GAME_WIDTH_eq]
        omega

/-- C1: starting from any state whose moving platform lies inside
`[0, GAME_WIDTH)` — which holds after `reset_game` and is re-established
by every successful `check_landing` — every sequence of
`update_movement` ticks keeps the platform's column range
`[moving_platform_pos, moving_platform_pos + platform_width - 1]`
inside `[0, GAME_WIDTH)`; at the right boundary (when a step would make
`moving_platform_pos + platform_width ≥ GAME_WIDTH`) and at the left
boundary (`moving_platform_pos ≤ 0`) a firing tick only reverses the
direction flag and never moves the platform. -/
theorem C1_oscillation_bounds :
    (∀ (s : GameData) (dts : List ℚ), MovInv s → MovInv (ticks s dts)) ∧
    (∀ (s : GameData) (dts : List ℚ), MovInv s →
      0 ≤ (ticks s dts).moving_platform_pos ∧
      (ticks s dts).moving_platform_pos + (ticks s dts).platform_width - 1 < GAME_WIDTH) ∧
    (∀ (s : GameData) (dt : ℚ), s.move_right = true →
      ¬(s.moving_platform_pos + s.platform_width < GAME_WIDTH) →
      (update_movement s dt).1.moving_platform_pos = s.moving_platform_pos ∧
      (s.move_interval ≤ s.move_timer + dt → (update_movement s dt).1.move_right = false)) ∧
    (∀ (s : GameData) (dt : ℚ), s.move_right = false →
      ¬(0 < s.moving_platform_pos) →
      (update_movement s dt).1.moving_platform_pos = s.moving_platform_pos ∧
      (s.move_interval ≤ s.move_timer + dt → (update_movement s dt).1.move_right = true)) ∧
    (∀ s : GameData, MovInv (reset_game s)) ∧
    (∀ s : GameData, (check_landing s).2 = true → MovInv (check_landing s).1) := by
  refine ⟨movInv_ticks, ?_, ?_, ?_, movInv_reset_game, movInv_check_landing⟩
  · intro s dts h
    obtain ⟨h1, h2⟩ := movInv_ticks s dts h
    exact ⟨h1, by omega⟩
  · intro s dt hdir hbound
    by_cases hfire : s.move_interval ≤ s.move_timer + dt
    · rw [update_movement_reverse_right s dt hfire hdir hbound]
      exact ⟨rfl, fun _ => rfl⟩
    · rw [update_movement_no_fire s dt hfire]
      exact ⟨rfl, fun hf => absurd hf hfire⟩
  · intro s dt hdir hstuck
    by_cases hfire : s.move_interval ≤ s.move_timer + dt
    · rw [update_movement_reverse_left s dt hfire hdir hstuck]
      exact ⟨rfl, fun _ => rfl⟩
    · rw [update_movement_no_fire s dt hfire]
      exact ⟨rfl, fun hf => absurd hf hfire⟩

/-- C1 witness: concrete instances of the oscillation-bound theorem at
the freshly reset session. -/
theorem C1_witness :
    MovInv (ticks demoPlay [1, 1, 1]) ∧ MovInv (reset_game demoPlay) :=
  ⟨C1_oscillation_bounds.1 demoPlay [1, 1, 1] (by decide),
   (C1_oscillation_bounds.2.2.2.2.1) demoPlay⟩

/-! ## Claim C7: geometric speed-up of the move interval -/

/-- C7: `start_game` resets the interval to `MOVE_INTERVAL`; a space
press whose landing succeeds multiplies the interval by
`SPEED_INCREASE` (so after `N` successes it equals
`MOVE_INTERVAL * SPEED_INCREASE ^ N`), a failed landing leaves it
unchanged, and the sequence is strictly decreasing (`f32` arithmetic
modelled as exact rationals). -/
theorem C7_speed_monotonicity :
    (∀ s : GameData, (start_game s).move_interval = MOVE_INTERVAL * SPEED_INCREASE ^ 0) ∧
    (∀ (s : GameData) (n : ℕ), s.state = GameState.Playing →
      s.move_interval = MOVE_INTERVAL * SPEED_INCREASE ^ n →
      (check_landing s).2 = true →
      (key_down_event s KeyCode.Space).move_interval
        = MOVE_INTERVAL * SPEED_INCREASE ^ (n + 1)) ∧
    (∀ s : GameData, s.state = GameState.Playing → (check_landing s).2 = false →
      (key_down_event s KeyCode.Space).move_interval = s.move_interval) ∧
    (∀ n : ℕ, MOVE_INTERVAL * SPEED_INCREASE ^ (n + 1) < MOVE_INTERVAL * SPEED_INCREASE ^ n) := by
  refine ⟨?_, ?_, ?_, ?_⟩
  · intro s
    simp [start_game, reset_game, add_new_row, add_base_row]
  · intro s n hstate hint hsucc
    unfold key_down_event
    rw [hstate]
    dsimp only
    rw [if_pos hsucc]
    dsimp only
    have h1 := (check_landing_scalars s).2.2.2.1
    simp [add_new_row, h1, hint]
    ring
  · intro s hstate hfail
    unfold key_down_event
    rw [hstate]
    dsimp only
    rw [if_neg (by simp [hfail])]
    dsimp only
    have h1 := (check_landing_scalars s).2.2.2.1
    split_ifs <;> simp [h1]
  · intro n
    have h0 : (0 : ℚ) < SPEED_INCREASE ^ n := pow_pos (by norm_num [SPEED_INCREASE]) n
    have h1 : SPEED_INCREASE ^ (n + 1) < SPEED_INCREASE ^ n := by
      rw [pow_succ]
      exact mul_lt_of_lt_one_right h0 (by norm_num [SPEED_INCREASE])
    have h2 : (0 : ℚ) < MOVE_INTERVAL := by norm_num [MOVE_INTERVAL]
    exact mul_lt_mul_of_pos_left h1 h2

/-- C7 witness: one successful landing from the freshly reset session
multiplies the interval once. -/
theorem C7_witness :
    (key_down_event demoPlay KeyCode.Space).move_interval
      = MOVE_INTERVAL * SPEED_INCREASE ^ (0 + 1) :=
  C7_speed_monotonicity.2.1 demoPlay 0 rfl (by simp [demoPlay]) (by decide)

/-! ## Claim C8: high-score and games-played bookkeeping -/

/-- C8: for every key event, `stats.high_score` changes — to the current
level — exactly on a Playing space press whose landing fails with
`level > high_score`; `stats.games_played` is incremented exactly on the
Menu confirm (`Return`) that starts a game (as `start_game` does), and
the per-frame tick never touches the stats. -/
theorem C8_stats_rules :
    (∀ (s : GameData) (k : KeyCode),
      (key_down_event s k).stats.high_score =
        if s.state = GameState.Playing ∧ k = KeyCode.Space ∧ (check_landing s).2 = false
            ∧ s.stats.high_score < s.level
        then s.level else s.stats.high_score) ∧
    (∀ (s : GameData) (k : KeyCode),
      (key_down_event s k).stats.games_played =
        if s.state = GameState.Menu ∧ k = KeyCode.Return
        then s.stats.games_played + 1 else s.stats.games_played) ∧
    (∀ s : GameData, (start_game s).stats.games_played = s.stats.games_played + 1 ∧
      (start_game s).stats.high_score = s.stats.high_score) ∧
    (∀ (s : GameData) (dt : ℚ) (e : Bool), (tick_update s dt e).stats = s.stats) := by
  refine ⟨?_, ?_, ?_, ?_⟩
  · intro s k
    unfold key_down_event
    cases hs : s.state <;> cases hk : k <;> dsimp only <;>
      try simp [start_game, reset_game, add_new_row, add_base_row]
    by_cases hc : (check_landing s).2 = true
    · rw [if_pos hc]
      have hst := (check_landing_scalars s).2.2.2.2.2
      simp [add_new_row, hst, hc]
    · rw [if_neg hc]
      have hb : (check_landing s).2 = false := by
        cases h2 : (check_landing s).2
        · rfl
        · exact absurd h2 hc
      have hst := (check_landing_scalars s).2.2.2.2.2
      have hlv := (check_landing_scalars s).2.2.2.2.1
      dsimp only
      split_ifs with h1 h2 h2 <;> simp_all
  · intro s k
    unfold key_down_event
    cases hs : s.state <;> cases hk : k <;> dsimp only <;>
      try simp [start_game, reset_game, add_new_row, add_base_row]
    by_cases hc : (check_landing s).2 = true
    · rw [if_pos hc]
      have hst := (check_landing_scalars s).2.2.2.2.2
      simp [add_new_row, hst, hc]
    · rw [if_neg hc]
      have hst := (check_landing_scalars s).2.2.2.2.2
      dsimp only
      split_ifs <;> simp_all
  · intro s
    constructor <;> simp [start_game, reset_game, add_new_row, add_base_row]
  · intro s dt e
    unfold tick_update
    cases hs : s.state <;> dsimp only
    · exact (update_movement_scalars s dt).2.2.2.2.2.2
    · split_ifs <;> rfl

/-! ## Claims C2, C3, C4: the landing algorithm -/

theorem active_count_eq_zero_of (ps pe : Int) (l : List GridBlock) (k : Nat)
    (h : ∀ i : Nat, i < l.length → ps ≤ ((k + i : Nat) : Int) →
      ((k + i : Nat) : Int) ≤ pe → (cell l i).active = false) :
    active_count ps pe k l = 0 := by
  induction l generalizing k with
  | nil => rfl
  | cons b t ih =>
    simp only [active_count]
    rw [if_neg, ih (k + 1), Nat.add_zero]
    · intro i hi h1 h2
      have := h (i + 1) (by simpa using hi) (by push_cast at h1 ⊢; omega)
        (by push_cast at h2 ⊢; omega)
      simpa [cell] using this
    · rintro ⟨h1, h2, h3, h4⟩
      have := h 0 (by simp) (by simpa using h1) (by simpa using h2)
      simp [cell] at this
      rw [this] at h4
      exact Bool.false_ne_true h4

theorem check_landing_grid_length (s : GameData) :
    (check_landing s).1.grid.length = s.grid.length := by
  unfold check_landing
  cases hg : s.grid.getLast? with
  | none => rfl
  | some row =>
    have hne : s.grid ≠ [] := by
      intro h
      rw [h] at hg
      simp at hg
    have hpos : 0 < s.grid.length := List.length_pos.mpr hne
    dsimp only
    split_ifs <;>
      (show (s.grid.dropLast ++ [_]).length = s.grid.length
       simp [List.length_dropLast]
       omega)

theorem key_down_event_miss (s : GameData) (hstate : s.state = GameState.Playing)
    (hfail : (check_landing s).2 = false) :
    (key_down_event s KeyCode.Space).state = GameState.GameOver ∧
    (key_down_event s KeyCode.Space).grid = (check_landing s).1.grid ∧
    (key_down_event s KeyCode.Space).level = s.level ∧
    (key_down_event s KeyCode.Space).platform_width = (check_landing s).1.platform_width ∧
    (key_down_event s KeyCode.Space).platform_position
      = (check_landing s).1.platform_position ∧
    (key_down_event s KeyCode.Space).moving_platform_pos
      = (check_landing s).1.moving_platform_pos ∧
    (key_down_event s KeyCode.Space).current_row = (check_landing s).1.current_row := by
  unfold key_down_event
  rw [hstate]
  dsimp only
  rw [if_neg (by simp [hfail])]
  dsimp only
  split_ifs <;>
    exact ⟨rfl, rfl, (check_landing_scalars s).2.2.2.2.1, rfl, rfl, rfl, rfl⟩

/-- C2: for a (live) last row of the grid's width, `check_landing`
succeeds exactly when some active cell of that row lies in the target
span `[platform_position, platform_position + platform_width - 1]`;
on success the new `platform_width` equals exactly the number of active
cells of that row whose column lies in the prior target span, the new
`platform_position` is `(GAME_WIDTH - platform_width) / 2` (integer
floor division, the operands being nonnegative), and
`moving_platform_pos` equals the new `platform_position`. -/
theorem C2_landing_conservation (s : GameData) (row : List GridBlock)
    (hrow : s.grid.getLast? = some row) (hlen : row.length = 15) :
    ((check_landing s).2 = true ↔
      0 < activeInSpan s.platform_position
        (s.platform_position + s.platform_width - 1) 0 row) ∧
    ((check_landing s).2 = true →
      (check_landing s).1.platform_width =
        (activeInSpan s.platform_position
          (s.platform_position + s.platform_width - 1) 0 row : Int) ∧
      (check_landing s).1.platform_position
        = (GAME_WIDTH - (check_landing s).1.platform_width) / 2 ∧
      (check_landing s).1.moving_platform_pos
        = (check_landing s).1.platform_position) := by
  have hcnt : active_count s.platform_position (s.platform_position + s.platform_width - 1) 0
      (markRow (fallMark s.platform_position (s.platform_position + s.platform_width - 1)) 0 row)
      = activeInSpan s.platform_position (s.platform_position + s.platform_width - 1) 0 row := by
    rw [active_count_markRow _ _ _ (fallMark_active _ _) 0 row]
    exact active_count_eq_activeInSpan _ _ 0 row (by omega)
  unfold check_landing
  rw [hrow]
  dsimp only
  rw [hcnt]
  split_ifs with hc
  · exact ⟨by simp [hc], fun _ => ⟨rfl, rfl, rfl⟩⟩
  · exact ⟨by simp [hc], fun h => absurd h (by simp)⟩

/-- C2 witness: the concrete shifted landing (target span `[5..9]`,
moving platform `[7..11]`): the surviving width is the active-in-span
count 3 and the platform is recentred at `(15 - 3) / 2 = 6`. -/
theorem C2_witness :
    (check_landing scenarioShifted).1.platform_width
      = (activeInSpan 5 9 0 (newRowAt 7 5 0) : Int) ∧
    (check_landing scenarioShifted).1.platform_position
      = (GAME_WIDTH - (check_landing scenarioShifted).1.platform_width) / 2 ∧
    (check_landing scenarioShifted).1.moving_platform_pos
      = (check_landing scenarioShifted).1.platform_position :=
  (C2_landing_conservation scenarioShifted (newRowAt 7 5 0) (by decide) (by decide)).2
    (by decide)

/-- C3: if no active, not-yet-landed cell of the (live, freshly spawned,
hence nowhere-landed) top row lies in the target span, `check_landing`
returns failure and leaves the grid row count unchanged, and the space
press transitions the session to GameOver without appending a row. -/
theorem C3_total_miss (s : GameData) (row : List GridBlock)
    (hstate : s.state = GameState.Playing)
    (hrow : s.grid.getLast? = some row)
    (hfresh : ∀ i : Nat, i < row.length → (cell row i).landed = false)
    (hmiss : ∀ i : Nat, i < row.length →
      s.platform_position ≤ (i : Int) →
      (i : Int) ≤ s.platform_position + s.platform_width - 1 →
      ¬((cell row i).active = true ∧ (cell row i).landed = false)) :
    (check_landing s).2 = false ∧
    (check_landing s).1.grid.length = s.grid.length ∧
    (key_down_event s KeyCode.Space).state = GameState.GameOver ∧
    (key_down_event s KeyCode.Space).grid.length = s.grid.length := by
  have hact : ∀ i : Nat, i < row.length → s.platform_position ≤ (i : Int) →
      (i : Int) ≤ s.platform_position + s.platform_width - 1 →
      (cell row i).active = false := by
    intro i hi h1 h2
    cases ha : (cell row i).active
    · rfl
    · exact absurd ⟨ha, hfresh i hi⟩ (hmiss i hi h1 h2)
  have hzero : active_count s.platform_position
      (s.platform_position + s.platform_width - 1) 0 row = 0 :=
    active_count_eq_zero_of _ _ row 0
      (fun i hi h1 h2 => hact i hi (by simpa using h1) (by simpa using h2))
  have hcnt : active_count s.platform_position (s.platform_position + s.platform_width - 1) 0
      (markRow (fallMark s.platform_position (s.platform_position + s.platform_width - 1)) 0 row)
      = 0 := by
    rw [active_count_markRow _ _ _ (fallMark_active _ _) 0 row]
    exact hzero
  have hfail : (check_landing s).2 = false := by
    unfold check_landing
    rw [hrow]
    dsimp only
    rw [hcnt]
    simp
  have hmain := key_down_event_miss s hstate hfail
  refine ⟨hfail, check_landing_grid_length s, hmain.1, ?_⟩
  rw [hmain.2.1, check_landing_grid_length s]

/-- C3 witness: the concrete miss (moving platform `[12..14]`, target
span `[6..8]`, zero overlap) takes the failure path: `check_landing`
fails, the 2-row grid stays 2 rows, and the session goes to GameOver. -/
theorem C3_witness :
    (check_landing scenarioMiss).2 = false ∧
    (check_landing scenarioMiss).1.grid.length = scenarioMiss.grid.length ∧
    (key_down_event scenarioMiss KeyCode.Space).state = GameState.GameOver ∧
    (key_down_event scenarioMiss KeyCode.Space).grid.length = scenarioMiss.grid.length :=
  C3_total_miss scenarioMiss (newRowAt 12 3 0) rfl (by decide)
    (by decide) (by decide)

/-- C4 counterexample: in the concrete scenario (GAME_WIDTH = 15,
target span `[5..9]`, moving platform at `[7..11]`) the claim asserts
that columns `[7..8]` and `[9..11]` end up `falling = true`; in fact the
overlap columns 7, 8 and 9 are landed, not falling — the set of falling
columns after the call is exactly `[10, 11]`. -/
theorem C4_counterexample :
    (cell (topRow (check_landing scenarioShifted).1) 7).falling = false ∧
    (cell (topRow (check_landing scenarioShifted).1) 9).falling = false ∧
    fallingCols 0 (topRow (check_landing scenarioShifted).1) = [10, 11] := by
  refine ⟨?_, ?_, ?_⟩ <;> decide

/-- C4 (amended): in the concrete scenario (GAME_WIDTH = 15,
`platform_width = 5`, `platform_position = 5`, moving platform at
columns `[7..11]`), after `check_landing`: `platform_width = 3`,
`platform_position = (15 - 3) / 2 = 6`, `moving_platform_pos = 6`, the
call succeeds, and the cells of the top row marked `falling = true` are
exactly the overhang columns `[10..11]` (the moving-platform columns
outside the target span), while the overlap columns `[7..9]` are marked
landed. -/
theorem C4_concrete_landing :
    (check_landing scenarioShifted).2 = true ∧
    (check_landing scenarioShifted).1.platform_width = 3 ∧
    (check_landing scenarioShifted).1.platform_position = 6 ∧
    (check_landing scenarioShifted).1.moving_platform_pos = 6 ∧
    fallingCols 0 (topRow (check_landing scenarioShifted).1) = [10, 11] ∧
    (cell (topRow (check_landing scenarioShifted).1) 7).landed = true ∧
    (cell (topRow (check_landing scenarioShifted).1) 8).landed = true ∧
    (cell (topRow (check_landing scenarioShifted).1) 9).landed = true := by
  refine ⟨?_, ?_, ?_, ?_, ?_, ?_, ?_, ?_⟩ <;> decide

/-! ## Claim C6: the camera-offset policy -/

/-- C6 counterexample: with an 800×600 window, a 6-row tower at level 4
the live row's y-position is `600 - 6·(800/15) = 280`, which is *not*
within the top 30% of the viewport (`280 ≥ 0.3·600 = 180`), yet the
offset is rewritten from 0 to `280 - 180 = 100` (the code's threshold
is 70%, not 30%); and one row later the offset is rewritten *down*
from 100 to `600 - 7·(800/15) - 180 = 140/3 < 100`, so the offset is
not monotonically non-decreasing either. -/
theorem C6_counterexample :
    scenarioTower.camera_offset_y = 0 ∧
    ¬(scenarioTower.window_height - (scenarioTower.grid.length : ℚ)
        * (scenarioTower.window_width / (GAME_WIDTH : ℚ))
      < scenarioTower.window_height * 0.3) ∧
    (camera_update scenarioTower).camera_offset_y = 100 ∧
    (camera_update scenarioTower7).camera_offset_y
      < (camera_update scenarioTower).camera_offset_y := by
  refine ⟨rfl, ?_, ?_, ?_⟩
  · norm_num [scenarioTower, demoPlay, GAME_WIDTH]
  · unfold camera_update
    rw [if_pos (by refine ⟨Or.inl rfl, by decide, by decide⟩),
      if_pos (by norm_num [scenarioTower, demoPlay, GAME_WIDTH])]
    show (600 : ℚ) - (6 : ℚ) * ((800 : ℚ) / (15 : ℚ)) - (600 : ℚ) * 0.3 = 100
    norm_num
  · unfold camera_update
    rw [if_pos (by refine ⟨Or.inl rfl, by decide, by decide⟩),
      if_pos (by
        show (600 : ℚ) - ((List.replicate 7 (baseRowAt 6 3)).length : ℚ) * ((800 : ℚ) / (15 : ℚ))
          < (600 : ℚ) * 0.7
        rw [List.length_replicate]
        norm_num),
      if_pos (by refine ⟨Or.inl rfl, by decide, by decide⟩),
      if_pos (by norm_num [scenarioTower, demoPlay, GAME_WIDTH])]
    show (600 : ℚ) - (7 : ℚ) * ((800 : ℚ) / (15 : ℚ)) - (600 : ℚ) * 0.3
      < (600 : ℚ) - (6 : ℚ) * ((800 : ℚ) / (15 : ℚ)) - (600 : ℚ) * 0.3
    norm_num

/-- C6 (amended): the camera offset is recomputed only while Playing or
GameOver with at least 2 rows and level ≥ 4; under those conditions it
is rewritten exactly when the live row's y-position
(`window_height - rows · block_draw_size`) is above **70%** of the
viewport height (`y < 0.7 · window_height` — not the top 30% the claim
states), in which case it is set to `y - 0.3 · window_height` so the
live row sits 30% down from the top of the shifted view; otherwise the
state is unchanged.  The offset is not monotone over a session: each
additional row strictly decreases the rewritten value (see the
counterexample). -/
theorem C6_camera_policy (s : GameData) :
    (¬((s.state = GameState.Playing ∨ s.state = GameState.GameOver)
        ∧ 1 < s.grid.length ∧ 4 ≤ s.level) → camera_update s = s) ∧
    (((s.state = GameState.Playing ∨ s.state = GameState.GameOver)
        ∧ 1 < s.grid.length ∧ 4 ≤ s.level) →
      (s.window_height - (s.grid.length : ℚ) * (s.window_width / (GAME_WIDTH : ℚ))
          < s.window_height * 0.7 →
        camera_update s =
          { s with camera_offset_y :=
              s.window_height - (s.grid.length : ℚ) * (s.window_width / (GAME_WIDTH : ℚ))
                - s.window_height * 0.3 }) ∧
      (¬(s.window_height - (s.grid.length : ℚ) * (s.window_width / (GAME_WIDTH : ℚ))
          < s.window_height * 0.7) →
        camera_update s = s)) := by
  refine ⟨?_, fun hc => ⟨?_, ?_⟩⟩
  · intro hnc
    unfold camera_update
    rw [if_neg hnc]
  · intro hy
    unfold camera_update
    rw [if_pos hc, if_pos hy]
  · intro hny
    unfold camera_update
    rw [if_pos hc, if_neg hny]

/-- C6 witness: the amended policy evaluated at the concrete 6-row
tower: the condition fires and the offset becomes `y - 0.3·h`. -/
theorem C6_witness :
    camera_update scenarioTower =
      { scenarioTower with camera_offset_y :=
          scenarioTower.window_height - (scenarioTower.grid.length : ℚ)
            * (scenarioTower.window_width / (GAME_WIDTH : ℚ))
            - scenarioTower.window_height * 0.3 } :=
  ((C6_camera_policy scenarioTower).2 ⟨Or.inl rfl, by decide, by decide⟩).1
    (by norm_num [scenarioTower, demoPlay, GAME_WIDTH])

/-! ## Claim C10: a failed landing only marks the falling cells -/

theorem active_eq_false_of_count_zero (ps pe : Int) (l : List GridBlock) (k : Nat)
    (h : active_count ps pe k l = 0) :
    ∀ i : Nat, i < l.length → ps ≤ ((k + i : Nat) : Int) → ((k + i : Nat) : Int) ≤ pe →
      ((k + i : Nat) : Int) < GAME_WIDTH → (cell l i).active = false := by
  induction l generalizing k with
  | nil => intro i hi; simp at hi
  | cons b t ih =>
    simp only [active_count, Nat.add_eq_zero] at h
    obtain ⟨h0, ht⟩ := h
    intro i hi h1 h2 h3
    cases i with
    | zero =>
      simp only [cell, List.getD_cons_zero]
      cases hb : b.active
      · rfl
      · exfalso
        rw [if_pos ⟨by simpa using h1, by simpa using h2, by simpa using h3, hb⟩] at h0
        exact one_ne_zero h0
    | succ j =>
      have := ih (k + 1) ht j (by simpa using hi)
        (by push_cast at h1 ⊢; omega) (by push_cast at h2 ⊢; omega)
        (by push_cast at h3 ⊢; omega)
      simpa [cell] using this

/-- C10: whenever `check_landing` fails (total miss), the scalar session
state — `platform_width`, `platform_position`, `moving_platform_pos`,
`current_row` — is unchanged, the grid keeps its row count and all rows
below the top are untouched, and the top row's cells change exactly as
follows: every active, not-yet-landed cell is marked `falling = true`
with `fall_offset` reset to 0, and every other cell is unchanged.
(The nonnegative-span hypotheses delimit the states on which the
integer model and the source's `usize` casts agree; every reachable
state satisfies them.) -/
theorem C10_miss_preserves_state (s : GameData) (row : List GridBlock)
    (hrow : s.grid.getLast? = some row) (hlen : row.length = 15)
    (_hps : 0 ≤ s.platform_position) (_hpw : 1 ≤ s.platform_width)
    (hfail : (check_landing s).2 = false) :
    (check_landing s).1.platform_width = s.platform_width ∧
    (check_landing s).1.platform_position = s.platform_position ∧
    (check_landing s).1.moving_platform_pos = s.moving_platform_pos ∧
    (check_landing s).1.current_row = s.current_row ∧
    (check_landing s).1.grid.length = s.grid.length ∧
    (check_landing s).1.grid.dropLast = s.grid.dropLast ∧
    ∀ i : Nat, i < 15 →
      cell (topRow (check_landing s).1) i =
        (if (cell row i).active = true ∧ (cell row i).landed = false then
          { cell row i with falling := true, fall_offset := 0 }
        else cell row i) := by
  have hcnt0 : active_count s.platform_position (s.platform_position + s.platform_width - 1) 0
      (markRow (fallMark s.platform_position (s.platform_position + s.platform_width - 1)) 0 row)
      = 0 := by
    unfold check_landing at hfail
    rw [hrow] at hfail
    dsimp only at hfail
    by_cases h : 0 < active_count s.platform_position
        (s.platform_position + s.platform_width - 1) 0
        (markRow (fallMark s.platform_position (s.platform_position + s.platform_width - 1)) 0 row)
    · rw [if_pos h] at hfail
      exact absurd hfail (by simp)
    · omega
  have hcntrow : active_count s.platform_position (s.platform_position + s.platform_width - 1)
      0 row = 0 := by
    rw [← active_count_markRow s.platform_position (s.platform_position + s.platform_width - 1)
      _ (fallMark_active _ _) 0 row]
    exact hcnt0
  have hnoact : ∀ i : Nat, i < 15 →
      s.platform_position ≤ (i : Int) → (i : Int) ≤ s.platform_position + s.platform_width - 1 →
      (cell row i).active = false := by
    intro i hi h1 h2
    have h3 : ((0 + i : Nat) : Int) < GAME_WIDTH := by
      rw [GAME_WIDTH_eq]
      push_cast
      omega
    have := active_eq_false_of_count_zero _ _ row 0 hcntrow i (by omega)
      (by simpa using h1) (by simpa using h2) h3
    exact this
  have hresult : (check_landing s).1 =
      { s with grid := s.grid.dropLast ++
          [markRow (landMark s.platform_position (s.platform_position + s.platform_width - 1)) 0
            (markRow (fallMark s.platform_position (s.platform_position + s.platform_width - 1))
              0 row)] } := by
    unfold check_landing
    rw [hrow]
    dsimp only
    rw [if_neg (by omega)]
  have hne : s.grid ≠ [] := by
    intro h
    rw [h] at hrow
    simp at hrow
  have hpos : 0 < s.grid.length := List.length_pos.mpr hne
  rw [hresult]
  refine ⟨rfl, rfl, rfl, rfl, ?_, ?_, ?_⟩
  · show (s.grid.dropLast ++ [_]).length = s.grid.length
    simp [List.length_dropLast]
    omega
  · show (s.grid.dropLast ++ [_]).dropLast = s.grid.dropLast
    exact List.dropLast_concat
  · intro i hi
    have htop : topRow { s with grid := s.grid.dropLast ++
        [markRow (landMark s.platform_position (s.platform_position + s.platform_width - 1)) 0
          (markRow (fallMark s.platform_position (s.platform_position + s.platform_width - 1))
            0 row)] } =
        markRow (landMark s.platform_position (s.platform_position + s.platform_width - 1)) 0
          (markRow (fallMark s.platform_position (s.platform_position + s.platform_width - 1))
            0 row) := by
      show List.getLastD (s.grid.dropLast ++ [_]) [] = _
      exact List.getLastD_concat _ _ _
    rw [htop]
    have hlen1 : (markRow (fallMark s.platform_position
        (s.platform_position + s.platform_width - 1)) 0 row).length = 15 := by
      rw [length_markRow, hlen]
    have hcell1 : cell (markRow (fallMark s.platform_position
        (s.platform_position + s.platform_width - 1)) 0 row) i =
        fallMark s.platform_position (s.platform_position + s.platform_width - 1) i
          (cell row i) := by
      rw [cell_markRow, if_pos (by omega)]
    rw [cell_markRow, hlen1, if_pos hi, hcell1]
    by_cases hspan : s.platform_position ≤ (i : Int) ∧
        (i : Int) ≤ s.platform_position + s.platform_width - 1
    · have hact := hnoact i hi hspan.1 hspan.2
      rw [fallMark, if_neg (by
        rintro ⟨ha, _, _⟩
        rw [hact] at ha
        exact Bool.false_ne_true ha)]
      rw [landMark, if_neg (by
        rintro ⟨_, _, _, ha⟩
        rw [hact] at ha
        exact Bool.false_ne_true ha)]
      rw [if_neg (by
        rintro ⟨ha, _⟩
        rw [hact] at ha
        exact Bool.false_ne_true ha)]
    · by_cases hmark : (cell row i).active = true ∧ (cell row i).landed = false
      · have hout : ((i : Int) < s.platform_position ∨
            s.platform_position + s.platform_width - 1 < (i : Int)) := by
          rcases not_and_or.mp hspan with h | h <;> [exact Or.inl (by omega); exact Or.inr (by omega)]
        rw [fallMark, if_pos ⟨hmark.1, hmark.2, hout⟩]
        rw [landMark, if_neg (by
          rintro ⟨h1, h2, _, _⟩
          exact absurd ⟨h1, h2⟩ hspan)]
        rw [if_pos hmark]
      · rw [fallMark, if_neg (by
          rintro ⟨h1, h2, _⟩
          exact hmark ⟨h1, h2⟩)]
        rw [landMark, if_neg (by
          rintro ⟨h1, h2, _, _⟩
          exact absurd ⟨h1, h2⟩ hspan)]
        rw [if_neg hmark]

/-- C10 witness: the concrete total miss (moving platform `[12..14]`
against target span `[6..8]`): the scalars survive, the row count stays
2, and column 12 of the top row is marked falling with offset 0. -/
theorem C10_witness :
    (check_landing scenarioMiss).1.platform_width = scenarioMiss.platform_width ∧
    (check_landing scenarioMiss).1.platform_position = scenarioMiss.platform_position ∧
    (check_landing scenarioMiss).1.grid.length = scenarioMiss.grid.length ∧
    cell (topRow (check_landing scenarioMiss).1) 12 =
      { cell (newRowAt 12 3 0) 12 with falling := true, fall_offset := 0 } := by
  have h := C10_miss_preserves_state scenarioMiss (newRowAt 12 3 0) (by decide) (by decide)
    (by decide) (by decide) (by decide)
  refine ⟨h.1, h.2.1, h.2.2.2.2.1, ?_⟩
  rw [h.2.2.2.2.2.2 12 (by omega), if_pos (by decide)]

/-! ## Claim C9: a Playing tick mutates only the last row -/

theorem cells_spec_map (dt : ℚ) (top : List GridBlock) :
    ∀ i : Nat,
      (cell (top.map (fallTick dt)) i).falling = (cell top i).falling ∧
      (cell (top.map (fallTick dt)) i).landed = (cell top i).landed ∧
      (cell (top.map (fallTick dt)) i).level = (cell top i).level ∧
      (cell (top.map (fallTick dt)) i).fall_offset =
        (if (cell top i).falling = true then (cell top i).fall_offset + FALL_SPEED * dt
          else (cell top i).fall_offset) ∧
      (cell (top.map (fallTick dt)) i).active = (cell top i).active := by
  intro i
  rw [cell_map_fallTick]
  obtain ⟨h1, h2, h3, h4, h5⟩ := fallTick_fields dt (cell top i)
  exact ⟨h4, h2, h3, h5, h1⟩

theorem stepRight_grid (s : GameData) (rs : List (List GridBlock)) (top : List GridBlock)
    (hgrid : s.grid = rs ++ [top]) :
    (stepRight s).grid = rs ++
      [if s.moving_platform_pos + s.platform_width < GAME_WIDTH
        then updAt (setActive true)
          (updAt (setActive false) top s.moving_platform_pos.toNat)
          (s.moving_platform_pos + s.platform_width).toNat
        else updAt (setActive false) top s.moving_platform_pos.toNat] := by
  unfold stepRight
  rw [hgrid, List.getLast?_concat]
  dsimp only
  rw [List.dropLast_concat]

theorem stepLeft_grid (s : GameData) (rs : List (List GridBlock)) (top : List GridBlock)
    (hgrid : s.grid = rs ++ [top]) :
    (stepLeft s).grid = rs ++
      [updAt (setActive true)
        (if s.moving_platform_pos + s.platform_width - 1 < GAME_WIDTH
          then updAt (setActive false) top (s.moving_platform_pos + s.platform_width - 1).toNat
          else top)
        (s.moving_platform_pos - 1).toNat] := by
  unfold stepLeft
  rw [hgrid, List.getLast?_concat]
  dsimp only
  rw [List.dropLast_concat]

/-- C9: on a Playing tick, only the last row of the grid is mutated:
all earlier rows are returned unchanged; the last row keeps its length
(falling cells are never removed) and, cell by cell, its `falling`,
`landed` and `level` flags; each cell with `falling = true` has its
`fall_offset` increased by exactly `FALL_SPEED * dt` (others keep
theirs); and at most two cells — the indices `p`, `q` exhibited — can
change their `active` flag (the trailing and leading edge of a fired
movement step). -/
theorem C9_tick_touches_only_top_row (s : GameData) (dt : ℚ) (e : Bool)
    (rs : List (List GridBlock)) (top : List GridBlock)
    (hstate : s.state = GameState.Playing) (hgrid : s.grid = rs ++ [top]) :
    ∃ (top' : List GridBlock) (p q : Nat),
      (tick_update s dt e).grid = rs ++ [top'] ∧
      top'.length = top.length ∧
      ∀ i : Nat,
        (cell top' i).falling = (cell top i).falling ∧
        (cell top' i).landed = (cell top i).landed ∧
        (cell top' i).level = (cell top i).level ∧
        (cell top' i).fall_offset =
          (if (cell top i).falling = true
            then (cell top i).fall_offset + FALL_SPEED * dt
            else (cell top i).fall_offset) ∧
        (i ≠ p → i ≠ q → (cell top' i).active = (cell top i).active) := by
  have htick : tick_update s dt e = (update_movement s dt).1 := by
    unfold tick_update
    rw [hstate]
  rw [htick]
  have hmtop : withLastRow (List.map (fallTick dt)) s.grid = rs ++ [top.map (fallTick dt)] := by
    rw [hgrid]
    exact withLastRow_concat _ _ _
  by_cases hfire : s.move_interval ≤ s.move_timer + dt
  · by_cases hdir : s.move_right = true
    · by_cases hcan : s.moving_platform_pos + s.platform_width < GAME_WIDTH
      · rw [update_movement_step_right s dt hfire hdir hcan]
        dsimp only
        have hstep := stepRight_grid
          { s with grid := withLastRow (List.map (fallTick dt)) s.grid, move_timer := 0 }
          rs (top.map (fallTick dt)) hmtop
        dsimp only at hstep
        rw [if_pos hcan] at hstep
        refine ⟨_, s.moving_platform_pos.toNat,
          (s.moving_platform_pos + s.platform_width).toNat, hstep, ?_, ?_⟩
        · rw [length_updAt, length_updAt, List.length_map]
        · intro i
          obtain ⟨m1, m2, m3, m4, m5⟩ := cells_spec_map dt top i
          obtain ⟨a1, a2, a3, a4, a5⟩ := cell_setActive_updAt false (top.map (fallTick dt))
            s.moving_platform_pos.toNat i
          obtain ⟨b1, b2, b3, b4, b5⟩ := cell_setActive_updAt true
            (updAt (setActive false) (top.map (fallTick dt)) s.moving_platform_pos.toNat)
            (s.moving_platform_pos + s.platform_width).toNat i
          refine ⟨?_, ?_, ?_, ?_, ?_⟩
          · rw [b1, a1, m1]
          · rw [b2, a2, m2]
          · rw [b3, a3, m3]
          · rw [b4, a4, m4]
          · intro hp hq
            rw [b5 hq, a5 hp, m5]
      · rw [update_movement_reverse_right s dt hfire hdir hcan]
        dsimp only
        refine ⟨top.map (fallTick dt), 0, 0, hmtop, List.length_map _ _, ?_⟩
        intro i
        obtain ⟨m1, m2, m3, m4, m5⟩ := cells_spec_map dt top i
        exact ⟨m1, m2, m3, m4, fun _ _ => m5⟩
    · have hdir2 : s.move_right = false := by
        cases hmr : s.move_right
        · rfl
        · exact absurd hmr hdir
      by_cases hcan : 0 < s.moving_platform_pos
      · rw [update_movement_step_left s dt hfire hdir2 hcan]
        dsimp only
        have hstep := stepLeft_grid
          { s with grid := withLastRow (List.map (fallTick dt)) s.grid, move_timer := 0 }
          rs (top.map (fallTick dt)) hmtop
        dsimp only at hstep
        by_cases hold : s.moving_platform_pos + s.platform_width - 1 < GAME_WIDTH
        · rw [if_pos hold] at hstep
          refine ⟨_, (s.moving_platform_pos + s.platform_width - 1).toNat,
            (s.moving_platform_pos - 1).toNat, hstep, ?_, ?_⟩
          · rw [length_updAt, length_updAt, List.length_map]
          · intro i
            obtain ⟨m1, m2, m3, m4, m5⟩ := cells_spec_map dt top i
            obtain ⟨a1, a2, a3, a4, a5⟩ := cell_setActive_updAt false (top.map (fallTick dt))
              (s.moving_platform_pos + s.platform_width - 1).toNat i
            obtain ⟨b1, b2, b3, b4, b5⟩ := cell_setActive_updAt true
              (updAt (setActive false) (top.map (fallTick dt))
                (s.moving_platform_pos + s.platform_width - 1).toNat)
              (s.moving_platform_pos - 1).toNat i
            refine ⟨?_, ?_, ?_, ?_, ?_⟩
            · rw [b1, a1, m1]
            · rw [b2, a2, m2]
            · rw [b3, a3, m3]
            · rw [b4, a4, m4]
            · intro hp hq
              rw [b5 hq, a5 hp, m5]
        · rw [if_neg hold] at hstep
          refine ⟨_, (s.moving_platform_pos - 1).toNat,
            (s.moving_platform_pos - 1).toNat, hstep, ?_, ?_⟩
          · rw [length_updAt, List.length_map]
          · intro i
            obtain ⟨m1, m2, m3, m4, m5⟩ := cells_spec_map dt top i
            obtain ⟨b1, b2, b3, b4, b5⟩ := cell_setActive_updAt true (top.map (fallTick dt))
              (s.moving_platform_pos - 1).toNat i
            refine ⟨?_, ?_, ?_, ?_, ?_⟩
            · rw [b1, m1]
            · rw [b2, m2]
            · rw [b3, m3]
            · rw [b4, m4]
            · intro hp _
              rw [b5 hp, m5]
      · rw [update_movement_reverse_left s dt hfire hdir2 hcan]
        dsimp only
        refine ⟨top.map (fallTick dt), 0, 0, hmtop, List.length_map _ _, ?_⟩
        intro i
        obtain ⟨m1, m2, m3, m4, m5⟩ := cells_spec_map dt top i
        exact ⟨m1, m2, m3, m4, fun _ _ => m5⟩
  · rw [update_movement_no_fire s dt hfire]
    dsimp only
    refine ⟨top.map (fallTick dt), 0, 0, hmtop, List.length_map _ _, ?_⟩
    intro i
    obtain ⟨m1, m2, m3, m4, m5⟩ := cells_spec_map dt top i
    exact ⟨m1, m2, m3, m4, fun _ _ => m5⟩

/-- C9 witness: the tick effect at the freshly reset session (base row
below, live row `[5..9]` on top). -/
theorem C9_witness :
    ∃ (top' : List GridBlock) (p q : Nat),
      (tick_update demoPlay 1 false).grid = [baseRowAt 5 5] ++ [top'] ∧
      top'.length = (newRowAt 5 5 0).length ∧
      ∀ i : Nat,
        (cell top' i).falling = (cell (newRowAt 5 5 0) i).falling ∧
        (cell top' i).landed = (cell (newRowAt 5 5 0) i).landed ∧
        (cell top' i).level = (cell (newRowAt 5 5 0) i).level ∧
        (cell top' i).fall_offset =
          (if (cell (newRowAt 5 5 0) i).falling = true
            then (cell (newRowAt 5 5 0) i).fall_offset + FALL_SPEED * 1
            else (cell (newRowAt 5 5 0) i).fall_offset) ∧
        (i ≠ p → i ≠ q → (cell top' i).active = (cell (newRowAt 5 5 0) i).active) :=
  C9_tick_touches_only_top_row demoPlay 1 false [baseRowAt 5 5] (newRowAt 5 5 0) rfl rfl
